import Mathlib

/-!
Verification of the megabump session-orchestration scripts.

The definitions below are a shallow embedding of `scripts/bot.py` and
`scripts/integerate.py`.  External collaborators (the revision tool, git,
the chat transport, the wall clock) are modelled as explicit inputs: exit
codes are naturals, raised exceptions are booleans or `Option`/`Except`
results, and side effects are recorded as explicit effect lists.
-/

namespace Megabump

/-! ### Report embeds (`bot.py` lines 17-25 and 181-189) -/

/-- A chat embed as the scripts build one: a title, a description and a colour. -/
structure EmbedM where
  title : String
  description : String
  color : Nat
deriving DecidableEq

/-- Python's slice `s[-n:]`: the last `n` characters of `s` (all of `s` when it
is shorter than `n`). -/
def pySliceLast (s : String) (n : Nat) : String :=
  String.mk (s.toList.drop (s.toList.length - n))

/-- Embedding of `get_truncated_embed` (`bot.py` lines 17-25): when the
description exceeds 1500 characters the title gets a marker appended, and the
description is cut to its last 1500 characters. -/
def get_truncated_embed (title desc : String) (color : Nat) : EmbedM :=
  let t := if desc.length > 1500 then title ++ " (truncated)" else title
  ⟨t, pySliceLast desc 1500, color⟩

/-- Embedding of the local helper redefined inside `BuildButton.callback`
(`bot.py` lines 181-189); it fixes the colour instead of taking it as an
argument. -/
def build_truncated_embed (title desc : String) : EmbedM :=
  let t := if desc.length > 1500 then title ++ " (truncated)" else title
  ⟨t, pySliceLast desc 1500, 0x3C09C8⟩

/-! ### The advance operation (`bot.py` lines 34-41 and 138-164) -/

/-- Embedding of `advance_to` (`bot.py` lines 34-41): the external tool's exit
code is the sole signal; a non-zero code yields `false` (the rejection carries
no further diagnostic), a zero code yields `true`. -/
def advance_to (returncode : Nat) : Bool :=
  if returncode != 0 then false else true

/-- The final message `AdvanceToButton.callback` edits into the channel. -/
inductive AdvanceOutcome
  | errorMessage
  | successMessage
deriving DecidableEq

/-- Embedding of the tail of `AdvanceToButton.callback` (`bot.py` lines
152-164): only a raised exception reaches the error edit; the boolean returned
by `advance_to` is discarded, and the success edit follows unconditionally. -/
def advanceCallbackOutcome (toolRaises : Bool) (returncode : Nat) : AdvanceOutcome :=
  if toolRaises then AdvanceOutcome.errorMessage
  else
    let _adv := advance_to returncode
    AdvanceOutcome.successMessage

/-! ### Status fetch (`bot.py` lines 28-31) -/

/-- Failure of an external tool, as the spec's error taxonomy names it. -/
inductive RevisionToolError
  | externalToolError
deriving DecidableEq

/-- The world `get_status` runs in: the exit code of the external
`llvm_revision fetch` call and the commit list local state holds. -/
structure StatusWorld where
  fetchExit : Nat
  newCommits : List (String × String)

/-- Modelled from the spec: `CurrentState` lives in `current_state.py`, which is
absent from the sources; per the spec its `new_commits` enumerates the commits
strictly after the current pointer, oldest first, read from local state.  We
model it as the commit list the world carries. -/
def currentStateNewCommits (w : StatusWorld) : List (String × String) :=
  w.newCommits

/-- Embedding of `get_status` (`bot.py` lines 28-31): `subprocess.run` is
called without any check of its return code, so the fetch exit code is
discarded and the commit list is returned unconditionally. -/
def get_status (w : StatusWorld) : Except RevisionToolError (List (String × String)) :=
  let _fetch := w.fetchExit
  Except.ok (currentStateNewCommits w)

/-! ### Session/branch validation and the mutating callbacks
(`bot.py` lines 99-124, 138-164, 178-262, 276-297, 300-321) -/

/-- The world a command runs in: the thread's recorded name (`get_branch_name`,
`none` when the lookup raises), the branch git has checked out, and the
invoking user's roles. -/
structure BotWorld where
  threadName : Option String
  currentBranch : String
  roles : List String
  accessRole : String

/-- Embedding of `check_role` (`bot.py` lines 99-106). -/
def check_role (roles : List String) (accessRole : String) : Bool :=
  roles.any (fun r => r == accessRole)

/-- Embedding of `check_channel` (`bot.py` lines 109-124): resolve the thread
to its branch name, fail when the lookup found nothing, then compare against
the currently checked-out branch. -/
def check_channel (w : BotWorld) : Bool :=
  match w.threadName with
  | none => false
  | some b => b == w.currentBranch

/-- The externally visible mutating or state-reading calls the bot makes. -/
inductive BotEffect
  | advanceTool (commitId : String)
  | buildPipeline
  | gitPush (branch : Option String)
  | fetchTool
  | paginatorOpen
deriving DecidableEq

/-- Embedding of the external calls of `AdvanceToButton.callback` (`bot.py`
lines 138-164): the callback performs no session/branch validation and invokes
the external advance tool unconditionally. -/
def advanceCallbackEffects (_w : BotWorld) (commitId : String) : List BotEffect :=
  [BotEffect.advanceTool commitId]

/-- Embedding of the external calls of `BuildButton.callback` (`bot.py` lines
178-262): the callback performs no session/branch validation and spawns the
build pipeline unconditionally. -/
def buildCallbackEffects (_w : BotWorld) : List BotEffect :=
  [BotEffect.buildPipeline]

/-- Embedding of the external calls of `PushButton.callback` (`bot.py` lines
276-297): the callback resolves the thread's branch name but performs no
comparison against the checked-out branch, and pushes unconditionally. -/
def pushCallbackEffects (w : BotWorld) : List BotEffect :=
  [BotEffect.gitPush w.threadName]

/-- Embedding of the external calls of the `status` slash command (`bot.py`
lines 300-321): the role check, then the session/branch validation, and only
when both pass the fetch and the opening of the review paginator that carries
the three action buttons. -/
def statusEffects (w : BotWorld) : List BotEffect :=
  if check_role w.roles w.accessRole then
    if check_channel w then [BotEffect.fetchTool, BotEffect.paginatorOpen] else []
  else []

/-! ### Build streaming (`bot.py` lines 204-228)

The build process's lines arrive as `(time, line)` events; wall-clock seconds
are modelled as naturals.  The loop accumulates every line into `logs` and
edits the progress message only when more than ten seconds have passed since
the last edit (or since the loop started). -/

/-- State of the streaming loop: the accumulated output, the reference time
`curr_time`, and the progress snapshots sent so far, each with its send time
and the accumulated output it showed. -/
structure StreamState where
  logs : List Char
  currTime : Nat
  snaps : List (Nat × List Char)

/-- Embedding of one iteration of the `for line in iter(...)` loop (`bot.py`
lines 215-227): append the line, then send a snapshot and reset `curr_time`
exactly when more than ten seconds have passed. -/
def streamStep (s : StreamState) (ev : Nat × List Char) : StreamState :=
  let logs := s.logs ++ ev.2
  if s.currTime + 10 < ev.1 then
    ⟨logs, ev.1, s.snaps ++ [(ev.1, logs)]⟩
  else
    ⟨logs, s.currTime, s.snaps⟩

/-- Embedding of the whole streaming loop (`bot.py` lines 213-227), starting
from the reference time taken before the loop and the initial log text. -/
def runStream (t0 : Nat) (init : List Char) (evs : List (Nat × List Char)) : StreamState :=
  evs.foldl streamStep ⟨init, t0, []⟩

/-- Consecutive events of a time list are each more than ten seconds after the
previous one (and the first more than ten seconds after the base time). -/
def cadenceOk : Nat → List Nat → Prop
  | _, [] => True
  | t, u :: us => t + 10 < u ∧ cadenceOk u us

/-- Last element of a list of times, with a default for the empty list. -/
def lastD (d : Nat) : List Nat → Nat
  | [] => d
  | t :: ts => lastD t ts

/-- Concatenation of a list of character lists. -/
def concatAll : List (List Char) → List Char
  | [] => []
  | l :: ls => l ++ concatAll ls

/-- The example stream of the spec: one line every two seconds for thirty
seconds. -/
def demoEvents : List (Nat × List Char) :=
  (List.range 15).map (fun i => (2 * (i + 1), ['x']))

/-! ### Condensed error report (`bot.py` lines 230-242) -/

/-- Python's `str.split("\n")`: cut a character list at every newline,
keeping empty pieces. -/
def splitLines : List Char → List (List Char)
  | [] => [[]]
  | c :: rest =>
    if c = '\n' then [] :: splitLines rest
    else
      match splitLines rest with
      | [] => [[c]]
      | l :: ls => (c :: l) :: ls

/-- Python's `str.startswith`: the first list begins the second. -/
def startsWithChars : List Char → List Char → Bool
  | [], _ => true
  | _ :: _, [] => false
  | a :: as, b :: bs => a == b && startsWithChars as bs

/-- Python's `in` on strings: the first list occurs contiguously in the
second. -/
def subList (pat : List Char) : List Char → Bool
  | [] => startsWithChars pat []
  | c :: rest => startsWithChars pat (c :: rest) || subList pat rest

/-- The line filter of `BuildButton.callback` (`bot.py` lines 235-239): keep a
line when it starts with the failure marker, or mentions a compiler error, or
mentions an assertion. -/
def isErrLine (line : List Char) : Bool :=
  startsWithChars ("FAILED:".toList) line
    || subList ("error:".toList) line
    || subList ("Assertion".toList) line

/-- Embedding of the error-report extraction (`bot.py` lines 233-240): split
the accumulated output on newlines and keep the marked lines, in order. -/
def build_error_report (logs : List Char) : List (List Char) :=
  (splitLines logs).filter isErrLine

/-! ### Branch-name derivation (`integerate.py` lines 13-18) -/

/-- The name the loop proposes at each stage: the bare base first, then the
base with suffixes `_1`, `_2`, and so on. -/
def branch_candidate (base : String) : Nat → String
  | 0 => base
  | Nat.succ k => base ++ "_" ++ toString (k + 1)

/-- Embedding of the `while git_branch_exists(...)` loop (`integerate.py`
lines 15-18), with explicit fuel standing for the unbounded iteration: as long
as the current candidate exists, move to the next suffix. -/
def branch_search (ex : String → Bool) (base : String) : Nat → String → Nat → Option String
  | 0, _, _ => none
  | Nat.succ fuel, name, counter =>
    if ex name then branch_search ex base fuel (base ++ "_" ++ toString counter) (counter + 1)
    else some name

/-- Embedding of the branch-name derivation (`integerate.py` lines 13-18):
start from the date-derived base with the counter at one. -/
def derive_branch_name (ex : String → Bool) (base : String) (fuel : Nat) : Option String :=
  branch_search ex base fuel base 1

/-! ### Session start (`integerate.py` lines 5-22)

The git wrappers live in `megabump_utils.py`, which is absent from the
sources; they are modelled from the spec below.  The world records, for each
wrapped git call, whether it succeeds. -/

/-- The world `start_integerate` runs in: the branch git has checked out, a
success flag per git call, the branch-exists query, and the current date
already rendered as `YYYYMMDD`. -/
structure IntWorld where
  currentBranch : String
  switchOk : Bool
  fetchOk : Bool
  pullOk : Bool
  submoduleOk : Bool
  branchExistsF : String → Bool
  datestr : String
  createOk : Bool
  commitOk : Bool

/-- The git calls `start_integerate` issues, in the order it issues them. -/
inductive GitOp
  | switchMain
  | fetch
  | pull
  | submoduleUpdate
  | createBranch (name : String)
  | commitAnchor (name : String)
deriving DecidableEq

/-- Modelled from the spec: the `megabump_utils` git wrappers (absent from the
sources) raise on a failed git command, so a failed call aborts the rest of
the function.  This helper runs `start_integerate` from the fetch onwards
(`integerate.py` lines 10-22), threading the trace of git calls already made;
a `none` result is an abort with no session. -/
def integerate_rest (w : IntWorld) (fuel : Nat) (t : List GitOp) : List GitOp × Option String :=
  let t1 := t ++ [GitOp.fetch]
  if !w.fetchOk then (t1, none) else
  let t2 := t1 ++ [GitOp.pull]
  if !w.pullOk then (t2, none) else
  let t3 := t2 ++ [GitOp.submoduleUpdate]
  if !w.submoduleOk then (t3, none) else
  match derive_branch_name w.branchExistsF ("integrate-llvm-" ++ w.datestr) fuel with
  | none => (t3, none)
  | some name =>
    let t4 := t3 ++ [GitOp.createBranch name]
    if !w.createOk then (t4, none) else
    let t5 := t4 ++ [GitOp.commitAnchor name]
    if !w.commitOk then (t5, none) else
    (t5, some name)

/-- Embedding of `start_integerate` (`integerate.py` lines 5-22): switch to
`main` when not already on it, synchronize, derive the branch name, create the
branch and record the anchor commit.  The result pairs the trace of git calls
with the branch name, `none` standing for an abort. -/
def start_integerate (w : IntWorld) (fuel : Nat) : List GitOp × Option String :=
  if w.currentBranch != "main" then
    if !w.switchOk then ([GitOp.switchMain], none)
    else integerate_rest w fuel [GitOp.switchMain]
  else integerate_rest w fuel []

/-! ### Commit-description parsing (`bot.py` lines 59-96)

`parse_desc` matches the description against the anchored pattern
`(?P<commit_desc>.*?)\s*(?:\((?P<pr_num>#\d+)\))?\s*\((?P<author>.*?) on
(?P<date>.*?)\)`.  The functions below implement that fixed pattern with the
engine's backtracking order: the lazy `commit_desc`, `author` and `date`
groups grow shortest-first, the greedy `\s*` runs take their maximal length
(no shorter run can help, since whitespace opens neither parenthesised group),
the optional group is tried present before absent, and `\d+` takes the maximal
digit run (a shorter run would leave a digit where `)` is required). -/

/-- Python's `\s` on ASCII text. -/
def isWs (c : Char) : Bool :=
  c == ' ' || c == '\t' || c == '\n' || c == '\r' || c == '\x0b' || c == '\x0c'

/-- The optional group `\(#\d+\)` at the head of the input: a parenthesised
`#` followed by at least one digit.  Returns the `pr_num` group (with its
`#`) and the rest of the input. -/
def parsePr : List Char → Option (List Char × List Char)
  | '(' :: '#' :: rest =>
    let ds := rest.takeWhile Char.isDigit
    match ds, rest.drop ds.length with
    | [], _ => none
    | _ :: _, ')' :: r => some ('#' :: ds, r)
    | _ :: _, _ => none
  | _ => none

/-- The lazy tail `(?P<date>.*?)\)`: the shortest run of non-newline
characters followed by a closing parenthesis. -/
def dateScan : List Char → Option (List Char)
  | [] => none
  | c :: rest =>
    if c = ')' then some []
    else if c = '\n' then none
    else (dateScan rest).map (fun d => c :: d)

/-- The lazy pair `(?P<author>.*?) on (?P<date>.*?)\)`: grow the author
shortest-first until a literal " on " is followed by a date scan that
succeeds. -/
def matchOnDate : List Char → Option (List Char × List Char)
  | [] => none
  | c :: rest =>
    if (c :: rest).take 4 = [' ', 'o', 'n', ' '] then
      match dateScan ((c :: rest).drop 4) with
      | some d => some ([], d)
      | none =>
        if c = '\n' then none
        else (matchOnDate rest).map (fun (p : List Char × List Char) => (c :: p.1, p.2))
    else
      if c = '\n' then none
      else (matchOnDate rest).map (fun (p : List Char × List Char) => (c :: p.1, p.2))

/-- The pattern after the `commit_desc` group:
`\s*(?:\(#\d+\))?\s*\(author on date\)`, with the optional group tried
present before absent.  Returns the optional `pr_num`, the author and the
date. -/
def matchAfterDesc (l : List Char) : Option (Option (List Char) × List Char × List Char) :=
  let afterWs1 := l.dropWhile isWs
  let present :=
    match parsePr afterWs1 with
    | some (pr, rest) =>
      match rest.dropWhile isWs with
      | '(' :: r =>
        (matchOnDate r).map (fun (p : List Char × List Char) => (some pr, p.1, p.2))
      | _ => none
    | none => none
  match present with
  | some x => some x
  | none =>
    match afterWs1 with
    | '(' :: r =>
      (matchOnDate r).map
        (fun (p : List Char × List Char) => ((none : Option (List Char)), p.1, p.2))
    | _ => none

/-- The anchored lazy head `(?P<commit_desc>.*?)`: grow the description
shortest-first (never across a newline) until the rest of the pattern
matches. -/
def parseDescGo : List Char → Option (List Char × Option (List Char) × List Char × List Char)
  | [] =>
    match matchAfterDesc [] with
    | some (pr, a, d) => some ([], pr, a, d)
    | none => none
  | c :: rest =>
    match matchAfterDesc (c :: rest) with
    | some (pr, a, d) => some ([], pr, a, d)
    | none =>
      if c = '\n' then none
      else
        (parseDescGo rest).map
          (fun (r : List Char × Option (List Char) × List Char × List Char) =>
            (c :: r.1, r.2))

/-- Embedding of `parse_desc` (`bot.py` lines 59-68): the groups
`(commit_desc, pr_num, author, date)` of the match, or `none` when the
pattern does not match. -/
def parse_desc (desc : String) : Option (String × Option String × String × String) :=
  (parseDescGo desc.toList).map
    (fun r => (String.mk r.1, r.2.1.map String.mk, String.mk r.2.2.1, String.mk r.2.2.2))

/-- A commit embed as `get_commit_embed` builds one: the structured fields are
`none` when the description did not parse. -/
structure CommitEmbed where
  title : String
  url : String
  description : String
  authorName : Option String
  dateField : Option String
  prField : Option String
deriving DecidableEq

/-- Embedding of `get_commit_embed` (`bot.py` lines 71-96): an unparsed
description is kept verbatim with no structured fields; a parsed one yields
the author and date fields and either a pull-request link or "No PR". -/
def get_commit_embed (commitId desc : String) : CommitEmbed :=
  match parse_desc desc with
  | none =>
    ⟨commitId, "https://github.com/llvm/llvm-project/commit/" ++ commitId, desc,
      none, none, none⟩
  | some (commitDesc, prNum, author, date) =>
    let ghLink :=
      match prNum with
      | none => "No PR"
      | some pr => "https://github.com/llvm/llvm-project/pull/" ++ pr.drop 1
    ⟨commitId, "https://github.com/llvm/llvm-project/commit/" ++ commitId, commitDesc,
      some author, some date, some ghLink⟩

/-! ### Review paging and action dispatch (`bot.py` lines 138-148, 316)

The paginator shows one commit per page; its page buttons run in the bot's
single-threaded event loop, so they can only interleave with a callback at
that callback's own await points.  `AdvanceToButton.callback` awaits the
interaction deferral (line 139) before reading `current_page` (line 142) and
cancels the paginator — disabling further navigation — only afterwards (line
146). -/

/-- The paginator's state: the commit id shown on each page, the current page
index, and whether the paginator has been cancelled. -/
structure PagState where
  pages : List String
  current : Nat
  frozen : Bool
deriving DecidableEq

/-- A page-navigation button press. -/
inductive NavEvent
  | next
  | back
deriving DecidableEq

/-- One navigation event against the paginator: ignored once the paginator is
cancelled, otherwise the index moves one page, clamped at the ends. -/
def applyNav (p : PagState) (e : NavEvent) : PagState :=
  if p.frozen then p
  else
    match e with
    | NavEvent.next => ⟨p.pages, min (p.current + 1) (p.pages.length - 1), p.frozen⟩
    | NavEvent.back => ⟨p.pages, p.current - 1, p.frozen⟩

/-- A sequence of navigation events. -/
def applyNavs (p : PagState) (es : List NavEvent) : PagState :=
  es.foldl applyNav p

/-- Embedding of the dispatch prefix of `AdvanceToButton.callback` (`bot.py`
lines 138-148): the interaction deferral is awaited first — during which the
event loop may process the given navigation events — then the commit id is
read from the page at the current index, and only then is the paginator
cancelled.  Returns the commit id acted upon and the paginator state after
dispatch. -/
def advanceDispatch (p : PagState) (navsDuringDefer : List NavEvent) : String × PagState :=
  let p1 := applyNavs p navsDuringDefer
  let commitId := p1.pages.getD p1.current ""
  let p2 : PagState := ⟨p1.pages, p1.current, true⟩
  (commitId, p2)

/-! ### Helper lemmas -/

/-- A cancelled paginator ignores every further navigation event. -/
lemma applyNavs_frozen (q : PagState) (hq : q.frozen = true) :
    ∀ es : List NavEvent, applyNavs q es = q := by
  intro es
  induction es with
  | nil => rfl
  | cons e es ih =>
    have he : applyNav q e = q := by simp [applyNav, hq]
    show applyNavs (applyNav q e) es = q
    rw [he]
    exact ih

/-- Appending to a time list moves its last element to the appended one. -/
lemma lastD_append (t : Nat) : ∀ (ts : List Nat) (d : Nat), lastD d (ts ++ [t]) = t := by
  intro ts
  induction ts with
  | nil => intro d; rfl
  | cons u us ih => intro d; exact ih u

/-- A gapped time list stays gapped when a time more than ten seconds after
its last element is appended. -/
lemma cadenceOk_append (t : Nat) :
    ∀ (ts : List Nat) (d : Nat), cadenceOk d ts → lastD d ts + 10 < t →
      cadenceOk d (ts ++ [t]) := by
  intro ts
  induction ts with
  | nil => intro d _ h2; exact ⟨h2, trivial⟩
  | cons u us ih => intro d h1 h2; exact ⟨h1.1, ih u h1.2 h2⟩

/-- One streaming step always appends the incoming line to the log. -/
lemma streamStep_logs (s : StreamState) (ev : Nat × List Char) :
    (streamStep s ev).logs = s.logs ++ ev.2 := by
  by_cases hc : s.currTime + 10 < ev.1 <;> simp [streamStep, hc]

/-- Invariant of the streaming loop: the snapshot times stay gapped by more
than ten seconds, and the reference time is the last snapshot time (the start
time while no snapshot was sent). -/
lemma stream_inv (t0 : Nat) :
    ∀ (evs : List (Nat × List Char)) (s : StreamState),
      cadenceOk t0 (s.snaps.map Prod.fst) →
      s.currTime = lastD t0 (s.snaps.map Prod.fst) →
      cadenceOk t0 ((evs.foldl streamStep s).snaps.map Prod.fst)
      ∧ (evs.foldl streamStep s).currTime
          = lastD t0 ((evs.foldl streamStep s).snaps.map Prod.fst) := by
  intro evs
  induction evs with
  | nil => intro s h1 h2; exact ⟨h1, h2⟩
  | cons ev evs ih =>
    intro s h1 h2
    show cadenceOk t0 ((evs.foldl streamStep (streamStep s ev)).snaps.map Prod.fst) ∧ _
    by_cases hc : s.currTime + 10 < ev.1
    · have hstep : streamStep s ev
          = ⟨s.logs ++ ev.2, ev.1, s.snaps ++ [(ev.1, s.logs ++ ev.2)]⟩ := by
        simp [streamStep, hc]
      apply ih
      · rw [hstep]
        show cadenceOk t0 ((s.snaps ++ [(ev.1, s.logs ++ ev.2)]).map Prod.fst)
        rw [List.map_append]
        exact cadenceOk_append ev.1 (s.snaps.map Prod.fst) t0 h1 (by rw [← h2]; exact hc)
      · rw [hstep]
        show ev.1 = lastD t0 ((s.snaps ++ [(ev.1, s.logs ++ ev.2)]).map Prod.fst)
        rw [List.map_append]
        exact (lastD_append ev.1 (s.snaps.map Prod.fst) t0).symm
    · have hstep : streamStep s ev = ⟨s.logs ++ ev.2, s.currTime, s.snaps⟩ := by
        simp [streamStep, hc]
      apply ih
      · rw [hstep]; exact h1
      · rw [hstep]; exact h2

/-- The streaming loop accumulates every incoming line, in order. -/
lemma runStream_logs :
    ∀ (evs : List (Nat × List Char)) (s : StreamState),
      (evs.foldl streamStep s).logs = s.logs ++ concatAll (evs.map Prod.snd) := by
  intro evs
  induction evs with
  | nil => intro s; simp [concatAll]
  | cons ev evs ih =>
    intro s
    show (evs.foldl streamStep (streamStep s ev)).logs = _
    rw [ih (streamStep s ev), streamStep_logs]
    show s.logs ++ ev.2 ++ concatAll (evs.map Prod.snd)
        = s.logs ++ (ev.2 ++ concatAll (evs.map Prod.snd))
    rw [List.append_assoc]

/-- Unrolling of the branch-search loop: if the candidates strictly before
stage `d` (counted from stage `j`) all exist and the stage-`d` candidate does
not, the loop run with enough fuel stops exactly there. -/
lemma branch_search_spec (ex : String → Bool) (base : String) :
    ∀ (d j fuel : Nat), d < fuel →
      ex (branch_candidate base (j + d)) = false →
      (∀ i, i < d → ex (branch_candidate base (j + i)) = true) →
      branch_search ex base fuel (branch_candidate base j) (j + 1)
        = some (branch_candidate base (j + d)) := by
  intro d
  induction d with
  | zero =>
    intro j fuel hf hfree _
    obtain ⟨f, rfl⟩ : ∃ f, fuel = f + 1 := ⟨fuel - 1, by omega⟩
    simp only [Nat.add_zero] at hfree
    simp [branch_search, hfree]
  | succ d ih =>
    intro j fuel hf hfree hmin
    obtain ⟨f, rfl⟩ : ∃ f, fuel = f + 1 := ⟨fuel - 1, by omega⟩
    have h0 : ex (branch_candidate base j) = true := by
      have := hmin 0 (Nat.succ_pos d)
      simpa using this
    have hstep :
        branch_search ex base (f + 1) (branch_candidate base j) (j + 1)
          = branch_search ex base f (base ++ "_" ++ toString (j + 1)) (j + 1 + 1) := by
      simp [branch_search, h0]
    rw [hstep]
    have hcand : base ++ "_" ++ toString (j + 1) = branch_candidate base (j + 1) := rfl
    rw [hcand]
    have hfree' : ex (branch_candidate base (j + 1 + d)) = false := by
      have he : j + 1 + d = j + (d + 1) := by omega
      rw [he]
      exact hfree
    have hmin' : ∀ i, i < d → ex (branch_candidate base (j + 1 + i)) = true := by
      intro i hi
      have he : j + 1 + i = j + (i + 1) := by omega
      rw [he]
      exact hmin (i + 1) (by omega)
    have := ih (j + 1) f (by omega) hfree' hmin'
    rw [this]
    have he : j + 1 + d = j + (d + 1) := by omega
    rw [he]

/-- Failure of any synchronization call aborts the rest of the session start:
the result carries no branch name, and the only git calls added to the trace
are the synchronization calls themselves. -/
lemma integerate_rest_fail (w : IntWorld) (fuel : Nat) (t : List GitOp)
    (h : w.fetchOk = false ∨ w.pullOk = false ∨ w.submoduleOk = false) :
    (integerate_rest w fuel t).2 = none
    ∧ ∀ n, (GitOp.createBranch n ∈ (integerate_rest w fuel t).1 → GitOp.createBranch n ∈ t)
        ∧ (GitOp.commitAnchor n ∈ (integerate_rest w fuel t).1 → GitOp.commitAnchor n ∈ t) := by
  rcases h with hf | hp | hs
  · constructor
    · simp [integerate_rest, hf]
    · intro n
      constructor <;> intro hm <;> simpa [integerate_rest, hf] using hm
  · by_cases hf : w.fetchOk = true
    · constructor
      · simp [integerate_rest, hf, hp]
      · intro n
        constructor <;> intro hm <;> simpa [integerate_rest, hf, hp] using hm
    · simp only [Bool.not_eq_true] at hf
      constructor
      · simp [integerate_rest, hf]
      · intro n
        constructor <;> intro hm <;> simpa [integerate_rest, hf] using hm
  · by_cases hf : w.fetchOk = true
    · by_cases hp : w.pullOk = true
      · constructor
        · simp [integerate_rest, hf, hp, hs]
        · intro n
          constructor <;> intro hm <;> simpa [integerate_rest, hf, hp, hs] using hm
      · simp only [Bool.not_eq_true] at hp
        constructor
        · simp [integerate_rest, hf, hp]
        · intro n
          constructor <;> intro hm <;> simpa [integerate_rest, hf, hp] using hm
    · simp only [Bool.not_eq_true] at hf
      constructor
      · simp [integerate_rest, hf]
      · intro n
        constructor <;> intro hm <;> simpa [integerate_rest, hf] using hm

/-- Taking the character list of a string built from a character list gives
that list back. -/
lemma string_toList_mk (L : List Char) : (String.mk L).toList = L := rfl

/-! ### Claims -/

/-- Claim C1, counterexample: in a world where the thread resolves to the
branch "integrate-llvm-20240101" while "main" is checked out, the
session/branch validation fails, yet the advance, build and push callbacks
still perform their mutation — the claim that a failing check blocks every
mutating dispatch is false. -/
theorem C1_counterexample :
    check_channel ⟨some "integrate-llvm-20240101", "main", ["integrator"], "integrator"⟩ = false
    ∧ BotEffect.advanceTool "deadbeef"
        ∈ advanceCallbackEffects
            ⟨some "integrate-llvm-20240101", "main", ["integrator"], "integrator"⟩ "deadbeef"
    ∧ BotEffect.buildPipeline
        ∈ buildCallbackEffects
            ⟨some "integrate-llvm-20240101", "main", ["integrator"], "integrator"⟩
    ∧ BotEffect.gitPush (some "integrate-llvm-20240101")
        ∈ pushCallbackEffects
            ⟨some "integrate-llvm-20240101", "main", ["integrator"], "integrator"⟩ := by
  refine ⟨by decide, ?_, ?_, ?_⟩ <;>
    simp [advanceCallbackEffects, buildCallbackEffects, pushCallbackEffects]

/-- Claim C1, amended: the session/branch validation guards only the review
opening — when the check fails the status command opens no paginator — while
the three button callbacks invoke the advance tool, the build pipeline and the
push unconditionally, with no re-validation at dispatch time. -/
theorem C1_validation_only_at_review_open (w : BotWorld) (c : String)
    (h : check_channel w = false) :
    statusEffects w = []
    ∧ advanceCallbackEffects w c = [BotEffect.advanceTool c]
    ∧ buildCallbackEffects w = [BotEffect.buildPipeline]
    ∧ pushCallbackEffects w = [BotEffect.gitPush w.threadName] := by
  refine ⟨?_, rfl, rfl, rfl⟩
  simp [statusEffects, h]

/-- Claim C1, witness: the amended theorem at the concrete stale world. -/
theorem C1_witness :
    statusEffects ⟨some "integrate-llvm-20240101", "main", ["integrator"], "integrator"⟩ = []
    ∧ advanceCallbackEffects
        ⟨some "integrate-llvm-20240101", "main", ["integrator"], "integrator"⟩ "deadbeef"
        = [BotEffect.advanceTool "deadbeef"]
    ∧ buildCallbackEffects
        ⟨some "integrate-llvm-20240101", "main", ["integrator"], "integrator"⟩
        = [BotEffect.buildPipeline]
    ∧ pushCallbackEffects
        ⟨some "integrate-llvm-20240101", "main", ["integrator"], "integrator"⟩
        = [BotEffect.gitPush (some "integrate-llvm-20240101")] :=
  C1_validation_only_at_review_open
    ⟨some "integrate-llvm-20240101", "main", ["integrator"], "integrator"⟩ "deadbeef" (by decide)

/-- Claim C2: the advance operation itself succeeds exactly on a zero exit
code and a non-zero exit yields the bare rejection; but the callback discards
that rejection — on exit code 1 (no exception raised) it still edits the
success message into the channel, so the failure is reported as success. -/
theorem C2_advance_exit_code_and_report :
    (∀ e, advance_to e = (e == 0))
    ∧ advance_to 1 = false
    ∧ advanceCallbackOutcome false 1 = AdvanceOutcome.successMessage := by
  refine ⟨fun e => ?_, rfl, rfl⟩
  cases e <;> rfl

/-- Claim C3, counterexample: with the fetch command exiting 1, `get_status`
still returns the commit list and does not fail — the claim that a non-zero
exit yields an `ExternalToolError` is false. -/
theorem C3_counterexample :
    (1 : Nat) ≠ 0
    ∧ get_status ⟨1, [("abc123", "Fix bug (Jane Doe on 2024-01-02)")]⟩
        = Except.ok [("abc123", "Fix bug (Jane Doe on 2024-01-02)")]
    ∧ get_status ⟨1, [("abc123", "Fix bug (Jane Doe on 2024-01-02)")]⟩
        ≠ Except.error RevisionToolError.externalToolError :=
  ⟨Nat.one_ne_zero, rfl, fun h => nomatch h⟩

/-- Claim C3, amended: `get_status` runs the external fetch but never inspects
its exit code; it returns the enumerated commit list for every exit code, the
same result whatever the code, and never fails. -/
theorem C3_status_ignores_exit (a b : Nat) (cs : List (String × String)) :
    get_status ⟨a, cs⟩ = Except.ok cs ∧ get_status ⟨a, cs⟩ = get_status ⟨b, cs⟩ :=
  ⟨rfl, rfl⟩

/-- Claim C4: for every sequence of timed output lines, consecutive progress
snapshots of the streaming loop are more than ten seconds apart (so at most
one snapshot is sent per ten seconds of wall clock), and the accumulated
output at process exit is exactly the initial text followed by every emitted
line in order; on the spec's example stream — one line every two seconds for
thirty seconds — the snapshots go out at seconds 12 and 24 and the log holds
all fifteen lines. -/
theorem C4_stream_cadence_and_accumulation (t0 : Nat) (init : List Char)
    (evs : List (Nat × List Char)) :
    cadenceOk t0 ((runStream t0 init evs).snaps.map Prod.fst)
    ∧ (runStream t0 init evs).logs = init ++ concatAll (evs.map Prod.snd)
    ∧ (runStream 0 [] demoEvents).snaps.map Prod.fst = [12, 24]
    ∧ (runStream 0 [] demoEvents).logs = "xxxxxxxxxxxxxxx".toList :=
  ⟨(stream_inv t0 evs ⟨init, t0, []⟩ trivial rfl).1,
    runStream_logs evs ⟨init, t0, []⟩, by decide, by decide⟩

/-- Claim C5: the condensed error report is exactly the marked lines of the
accumulated output — those starting with "FAILED:" or containing "error:" or
"Assertion" — kept in their original order (the report is a sublist of the
split output and membership is the marker test); on the spec's example the
report keeps the "FAILED: target" and "error: bad type" lines only. -/
theorem C5_error_report (logs : List Char) :
    List.Sublist (build_error_report logs) (splitLines logs)
    ∧ (∀ l, l ∈ build_error_report logs ↔ l ∈ splitLines logs ∧ isErrLine l = true)
    ∧ build_error_report ("FAILED: target\nnote: something\nerror: bad type".toList)
        = ["FAILED: target".toList, "error: bad type".toList] :=
  ⟨List.filter_sublist _, fun l => List.mem_filter, by decide⟩

/-- Claim C6: commit-description parsing follows the documented contract on
the three contract inputs — the full form yields all four groups, the form
without a pull-request marker yields the same groups with no marker, and an
unstructured text yields no match, the raw text surviving verbatim as the
embed's description with no structured fields. -/
theorem C6_parse_desc_contract :
    parse_desc "Fix bug (#123) (Jane Doe on 2024-01-02)"
        = some ("Fix bug", some "#123", "Jane Doe", "2024-01-02")
    ∧ parse_desc "Fix bug (Jane Doe on 2024-01-02)"
        = some ("Fix bug", none, "Jane Doe", "2024-01-02")
    ∧ parse_desc "unstructured text" = none
    ∧ get_commit_embed "abc123" "unstructured text"
        = ⟨"abc123", "https://github.com/llvm/llvm-project/commit/abc123",
            "unstructured text", none, none, none⟩ := by
  refine ⟨by decide, by decide, by decide, by decide⟩

/-- Claim C7, counterexample: a navigation event processed while the
interaction deferral awaits moves the page before the index is read, so the
commit acted upon is the one at the post-navigation index ("c1"), not the one
in view at the instant the action was invoked ("c0") — the claim that
navigation is frozen before the index read is false. -/
theorem C7_counterexample :
    (advanceDispatch ⟨["c0", "c1"], 0, false⟩ [NavEvent.next]).1 = "c1"
    ∧ List.getD ["c0", "c1"] 0 "" = "c0"
    ∧ ("c1" : String) ≠ "c0" := by
  refine ⟨by decide, by decide, by decide⟩

/-- Claim C7, amended: the dispatch reads the current index only after the
deferral await (so after any navigation events the event loop processed
meanwhile) and freezes navigation afterwards; the commit acted upon is the one
at the current index at the moment of the read, and once frozen the paginator
ignores every further navigation event. -/
theorem C7_read_then_freeze (p : PagState) (navs : List NavEvent) :
    (advanceDispatch p navs).1
        = (applyNavs p navs).pages.getD (applyNavs p navs).current ""
    ∧ (advanceDispatch p navs).2.frozen = true
    ∧ ∀ es, applyNavs (advanceDispatch p navs).2 es = (advanceDispatch p navs).2 :=
  ⟨rfl, rfl, fun es => applyNavs_frozen (advanceDispatch p navs).2 rfl es⟩

/-- Claim C8: the branch-name derivation returns the date-derived base when no
branch of that name exists (the stage-0 candidate), and otherwise the first
suffixed name that does not yet exist: with all candidates strictly before
stage `k` taken and the stage-`k` candidate free, the loop returns the
stage-`k` candidate. -/
theorem C8_branch_name_derivation (ex : String → Bool) (base : String) (k fuel : Nat)
    (hfree : ex (branch_candidate base k) = false)
    (hmin : ∀ i, i < k → ex (branch_candidate base i) = true)
    (hfuel : k < fuel) :
    derive_branch_name ex base fuel = some (branch_candidate base k) := by
  have h := branch_search_spec ex base k 0 fuel hfuel
    (by simpa using hfree) (fun i hi => by simpa using hmin i hi)
  simpa using h

/-- Claim C8, witness: with integrate-llvm-20240101 and
integrate-llvm-20240101_1 existing, the derivation yields
integrate-llvm-20240101_2. -/
theorem C8_witness :
    derive_branch_name
        (fun s => s == "integrate-llvm-20240101" || s == "integrate-llvm-20240101_1")
        "integrate-llvm-20240101" 10
      = some "integrate-llvm-20240101_2" :=
  (C8_branch_name_derivation
      (fun s => s == "integrate-llvm-20240101" || s == "integrate-llvm-20240101_1")
      "integrate-llvm-20240101" 2 10 (by decide) (by decide) (by decide)).trans
    (by decide)

/-- Claim C9: when the executed part of the synchronization (the switch to
trunk when needed, the fetch, the fast-forward pull or the submodule sync)
fails, the session start aborts with no branch name, and neither a
create-branch nor an anchor-commit git call appears in the trace — naming,
creation and anchoring run only after the synchronization succeeded. -/
theorem C9_sync_failure_aborts (w : IntWorld) (fuel : Nat)
    (h : (w.currentBranch ≠ "main" ∧ w.switchOk = false)
        ∨ w.fetchOk = false ∨ w.pullOk = false ∨ w.submoduleOk = false) :
    (start_integerate w fuel).2 = none
    ∧ ∀ n, GitOp.createBranch n ∉ (start_integerate w fuel).1
        ∧ GitOp.commitAnchor n ∉ (start_integerate w fuel).1 := by
  rcases h with ⟨hne, hsw⟩ | h
  · have hcond : (w.currentBranch != "main") = true := bne_iff_ne.mpr hne
    have hres : start_integerate w fuel = ([GitOp.switchMain], none) := by
      simp [start_integerate, hcond, hsw]
    rw [hres]
    exact ⟨rfl, fun n => by simp⟩
  · have hrest := fun t => integerate_rest_fail w fuel t h
    by_cases hcond : (w.currentBranch != "main") = true
    · by_cases hsw : w.switchOk = true
      · have hres : start_integerate w fuel = integerate_rest w fuel [GitOp.switchMain] := by
          simp [start_integerate, hcond, hsw]
        rw [hres]
        refine ⟨(hrest [GitOp.switchMain]).1, fun n => ⟨fun hm => ?_, fun hm => ?_⟩⟩
        · have := ((hrest [GitOp.switchMain]).2 n).1 hm
          simp at this
        · have := ((hrest [GitOp.switchMain]).2 n).2 hm
          simp at this
      · simp only [Bool.not_eq_true] at hsw
        have hres : start_integerate w fuel = ([GitOp.switchMain], none) := by
          simp [start_integerate, hcond, hsw]
        rw [hres]
        exact ⟨rfl, fun n => by simp⟩
    · have hres : start_integerate w fuel = integerate_rest w fuel [] := by
        simp only [Bool.not_eq_true] at hcond
        simp [start_integerate, hcond]
      rw [hres]
      refine ⟨(hrest []).1, fun n => ⟨fun hm => ?_, fun hm => ?_⟩⟩
      · exact absurd (((hrest []).2 n).1 hm) (List.not_mem_nil _)
      · exact absurd (((hrest []).2 n).2 hm) (List.not_mem_nil _)

/-- Claim C9, witness: a failing fetch on a world already on trunk aborts with
no branch created. -/
theorem C9_witness :
    (start_integerate ⟨"main", true, false, true, true, fun _ => false, "20240101", true, true⟩ 5).2
        = none
    ∧ ∀ n, GitOp.createBranch n
          ∉ (start_integerate
              ⟨"main", true, false, true, true, fun _ => false, "20240101", true, true⟩ 5).1
        ∧ GitOp.commitAnchor n
          ∉ (start_integerate
              ⟨"main", true, false, true, true, fun _ => false, "20240101", true, true⟩ 5).1 :=
  C9_sync_failure_aborts
    ⟨"main", true, false, true, true, fun _ => false, "20240101", true, true⟩ 5
    (Or.inr (Or.inl rfl))

/-- Claim C10: the report embed's description is exactly the last 1500
characters of the given description (all of it when it fits), the title gets
" (truncated)" appended exactly when the description is longer than 1500
characters, and the helper redefined inside the build callback is the same
function as the shared one, so the truncation applies uniformly to the
advance, build-progress, build-result and push reports. -/
theorem C10_truncated_embed (t d : String) :
    (get_truncated_embed t d 0x3C09C8).description.toList
        = d.toList.drop (d.toList.length - 1500)
    ∧ (d.length ≤ 1500 →
        (get_truncated_embed t d 0x3C09C8).description = d
        ∧ (get_truncated_embed t d 0x3C09C8).title = t)
    ∧ ((get_truncated_embed t d 0x3C09C8).title = t ++ " (truncated)" ↔ 1500 < d.length)
    ∧ build_truncated_embed t d = get_truncated_embed t d 0x3C09C8 := by
  refine ⟨string_toList_mk _, fun h => ⟨?_, ?_⟩, ⟨?_, fun h => ?_⟩, rfl⟩
  · show String.mk (d.toList.drop (d.toList.length - 1500)) = d
    have hz : d.toList.length - 1500 = 0 := Nat.sub_eq_zero_of_le h
    rw [hz, List.drop_zero]
    rfl
  · show (if d.length > 1500 then t ++ " (truncated)" else t) = t
    rw [if_neg (by omega)]
  · intro htitle
    by_cases hgt : d.length > 1500
    · exact hgt
    · exfalso
      have ht : (get_truncated_embed t d 0x3C09C8).title = t := by
        show (if d.length > 1500 then t ++ " (truncated)" else t) = t
        rw [if_neg hgt]
      rw [ht] at htitle
      have hlen := congrArg String.length htitle
      rw [String.length_append] at hlen
      have h12 : (" (truncated)" : String).length = 12 := rfl
      rw [h12] at hlen
      omega
  · show (if d.length > 1500 then t ++ " (truncated)" else t) = t ++ " (truncated)"
    rw [if_pos h]

end Megabump
